import Mathlib

/-!
Verification of the streaming response interpreter of
`src/utils/Create_model_client.py` (class `AsyncAnamnesisModelClient`).

The embedding models strings as `List Char` (Python strings are sequences of
code points).  The fragment stream delivered by the generation service is a
`List Delta`; the consumption loop of `_stream_and_process_response_async`
becomes a fold of `consumeChunk` over that list, and the post-loop parsing
becomes `finalizeState`.  The external JSON library (`json.loads`) is modelled
as a parameter `parse : List Char → Option J` of `run`.
-/

namespace AnamnesisClient

/-- One streamed chunk's delta, as read by the loop: `reasoning_content` is
`none` when the attribute is absent or `None`, `content` is `none` when the
`content` field is `None`. -/
structure Delta where
  reasoning_content : Option (List Char)
  content : Option (List Char)
deriving DecidableEq

/-- The mutable locals of `_stream_and_process_response_async`. -/
structure StreamState where
  full_response_content : List Char
  thinking_process : List Char
  final_answer : List Char
  is_official_api : Bool
deriving DecidableEq

/-- Initial values of the locals (lines 85–88 of the source). -/
def initState : StreamState :=
  { full_response_content := []
    thinking_process := []
    final_answer := []
    is_official_api := false }

/-- Python `str.find(pat)` on `List Char`: index of the first occurrence of
`pat` in `s`, `none` when absent (the source only calls it after an `in`
check, so the `-1` case maps to `none`). -/
def pyFind (pat : List Char) : List Char → Option Nat
  | [] => if pat.isPrefixOf ([] : List Char) then some 0 else none
  | c :: t =>
      if pat.isPrefixOf (c :: t) then some 0
      else (pyFind pat t).map (· + 1)

/-- Whitespace as stripped by Python `str.strip()` (the ASCII whitespace
code points, which cover every string the program manipulates). -/
def isPySpace (c : Char) : Bool :=
  c == ' ' || c == '\t' || c == '\n' || c == '\r' || c == '\x0b' || c == '\x0c'

/-- Python `str.strip()`: remove leading and trailing whitespace. -/
def pyStrip (s : List Char) : List Char :=
  ((s.dropWhile isPySpace).reverse.dropWhile isPySpace).reverse

/-- The literal opening tag `"<think>"`. -/
def openTagChars : List Char := "<think>".data

/-- The literal closing tag `"</think>"`. -/
def closeTagChars : List Char := "</think>".data

/-- The sentinel string returned when no reasoning text is found
(`"未找到思考过程。"`, "no reasoning found"). -/
def sentinelNoReasoning : List Char := "未找到思考过程。".data

/-- Loop body of `_stream_and_process_response_async` (lines 92–110): first
the official-API reasoning field is handled (setting the sticky flag and
appending to `thinking_process`), then the content delta is appended to
`full_response_content` or `final_answer` depending on the flag. -/
def consumeChunk (s : StreamState) (d : Delta) : StreamState :=
  let s1 :=
    match d.reasoning_content with
    | some r =>
        { s with is_official_api := true
                 thinking_process := s.thinking_process ++ r }
    | none => s
  match d.content with
  | some c =>
      if s1.is_official_api = false then
        { s1 with full_response_content := s1.full_response_content ++ c }
      else
        { s1 with final_answer := s1.final_answer ++ c }
  | none => s1

/-- Fold of the loop body over the whole fragment stream. -/
def runStream (chunks : List Delta) : StreamState :=
  List.foldl consumeChunk initState chunks

/-- Tag-based finalization for the Xinference dialect (lines 119–130):
Python slice `full[a:b]` is `(full.drop a).take (b - a)`; when the tags are
absent or the first `"</think>"` does not come strictly after the first
`"<think>"`, fall through to the sentinel and the whole stripped content. -/
def finalizeTagged (full_response_content : List Char) : List Char × List Char :=
  match pyFind openTagChars full_response_content,
        pyFind closeTagChars full_response_content with
  | some start_index, some end_index =>
      if start_index < end_index then
        (pyStrip ((full_response_content.drop (start_index + openTagChars.length)).take
            (end_index - (start_index + openTagChars.length))),
         pyStrip (full_response_content.drop (end_index + closeTagChars.length)))
      else
        (sentinelNoReasoning, pyStrip full_response_content)
  | _, _ => (sentinelNoReasoning, pyStrip full_response_content)

/-- Post-loop finalization (lines 115–130): the dual-channel (official API)
branch returns the accumulated reasoning (or the sentinel when empty) and the
accumulated answer; otherwise the `<think>` tag parsing runs. -/
def finalizeState (s : StreamState) : List Char × List Char :=
  if s.is_official_api then
    ((if s.thinking_process.isEmpty then sentinelNoReasoning else s.thinking_process),
     s.final_answer)
  else
    finalizeTagged s.full_response_content

/-- The whole of `_stream_and_process_response_async` viewed as a function of
the fragment stream: `(thinking_process, final_json_str)`. -/
def interpret (chunks : List Delta) : List Char × List Char :=
  finalizeState (runStream chunks)

/-- A chat message, as the dicts built by `_prepare_messages`. -/
structure Message where
  role : List Char
  content : List Char
deriving DecidableEq

/-- `_prepare_messages` (lines 52–68): system prompt verbatim; user input
prefixed with `"/no_think\n"` exactly when thinking is disabled. -/
def prepare_messages (system_prompt user_input : List Char)
    (enable_thinking : Bool) : List Message :=
  let final_user_input :=
    if enable_thinking = false then "/no_think\n".data ++ user_input
    else user_input
  [{ role := "system".data, content := system_prompt },
   { role := "user".data, content := final_user_input }]

/-- `run` (lines 133–162) after the stream has been consumed: `json.loads`
is the external JSON library, modelled by the parameter `parse`.  On parse
success the original `final_json_str` is returned unmodified (line 155); on
parse failure the exception is caught by the `except` block, which only logs
and falls off the end of the function, returning `None`. -/
def run {J : Type} (parse : List Char → Option J) (chunks : List Delta) :
    Option (List Char) :=
  let final_json_str := (interpret chunks).2
  match parse final_json_str with
  | some _ => some final_json_str
  | none => none

/-- Loop body including the pass-through display side effect: the `print`
calls of lines 98 and 110 are modelled by appending the echoed deltas to an
output trace. -/
def consumeChunkSink (p : StreamState × List (List Char)) (d : Delta) :
    StreamState × List (List Char) :=
  let s1out :=
    match d.reasoning_content with
    | some r =>
        ({ p.1 with is_official_api := true
                    thinking_process := p.1.thinking_process ++ r },
         p.2 ++ [r])
    | none => p
  match d.content with
  | some c =>
      (if s1out.1.is_official_api = false then
        { s1out.1 with full_response_content := s1out.1.full_response_content ++ c }
      else
        { s1out.1 with final_answer := s1out.1.final_answer ++ c },
       s1out.2 ++ [c])
  | none => s1out

/-- Fold of the effectful loop body, starting from the initial state and an
empty output trace. -/
def runStreamSink (chunks : List Delta) : StreamState × List (List Char) :=
  List.foldl consumeChunkSink (initState, []) chunks

/-- Concatenation of all non-null content deltas of a stream, in order. -/
def concatContents (chunks : List Delta) : List Char :=
  (chunks.map (fun d => d.content.getD [])).flatten

/-- Spec-side notion: the pattern `pat` occurs in `s` at index `i`. -/
def occursAt (pat s : List Char) (i : Nat) : Prop :=
  pat.isPrefixOf (s.drop i) = true

/-- Spec-side notion: `i` is the index of the first occurrence of `pat` in
`s` ("the first occurrence of the literal tag"). -/
def isFirstOccurrence (pat s : List Char) (i : Nat) : Prop :=
  occursAt pat s i ∧ ∀ j, j < i → ¬ occursAt pat s j

theorem pyFind_some_first (pat s : List Char) (i : Nat)
    (h : pyFind pat s = some i) : isFirstOccurrence pat s i := by
  induction s generalizing i with
  | nil =>
      simp only [pyFind] at h
      split at h
      · cases h
        exact ⟨by simpa only [occursAt, List.drop_zero] using ‹_›, fun j hj => by omega⟩
      · cases h
  | cons c t ih =>
      simp only [pyFind] at h
      split at h
      · cases h
        exact ⟨by simpa only [occursAt, List.drop_zero] using ‹_›, fun j hj => by omega⟩
      · rename_i hpre
        cases hf : pyFind pat t with
        | none => rw [hf] at h; cases h
        | some i0 =>
            rw [hf] at h
            simp only [Option.map_some', Option.some.injEq] at h
            subst h
            obtain ⟨h1, h2⟩ := ih i0 hf
            refine ⟨by simpa only [occursAt, List.drop_succ_cons] using h1, ?_⟩
            intro j hj
            cases j with
            | zero => simpa only [occursAt, List.drop_zero] using hpre
            | succ j0 =>
                have := h2 j0 (by omega)
                simpa only [occursAt, List.drop_succ_cons] using this

theorem pyFind_none_no_occurrence (pat s : List Char)
    (h : pyFind pat s = none) : ∀ i, ¬ occursAt pat s i := by
  induction s with
  | nil =>
      intro i hi
      simp only [pyFind] at h
      split at h
      · cases h
      · rename_i hpre
        exact hpre (by simpa only [occursAt, List.drop_nil] using hi)
  | cons c t ih =>
      intro i hi
      simp only [pyFind] at h
      split at h
      · cases h
      · rename_i hpre
        cases i with
        | zero => exact hpre (by simpa only [occursAt, List.drop_zero] using hi)
        | succ i0 =>
            have ht : pyFind pat t = none := by
              cases hf : pyFind pat t with
              | none => rfl
              | some k => rw [hf] at h; cases h
            exact ih ht i0 (by simpa only [occursAt, List.drop_succ_cons] using hi)

theorem first_occurrence_pyFind (pat s : List Char) (i : Nat)
    (h : isFirstOccurrence pat s i) : pyFind pat s = some i := by
  cases hf : pyFind pat s with
  | none => exact absurd h.1 (pyFind_none_no_occurrence pat s hf i)
  | some i0 =>
      have h0 := pyFind_some_first pat s i0 hf
      rcases Nat.lt_trichotomy i i0 with hlt | heq | hgt
      · exact absurd h.1 (h0.2 i hlt)
      · rw [heq]
      · exact absurd h0.1 (h.2 i0 hgt)

theorem consumeChunk_official_mono (s : StreamState) (d : Delta)
    (h : s.is_official_api = true) : (consumeChunk s d).is_official_api = true := by
  cases hr : d.reasoning_content <;> cases hc : d.content <;>
    simp [consumeChunk, hr, hc, h]

theorem consumeChunk_sets_official (s : StreamState) (d : Delta)
    (r : List Char) (h : d.reasoning_content = some r) :
    (consumeChunk s d).is_official_api = true := by
  cases hc : d.content <;> simp [consumeChunk, h, hc]

theorem foldl_official_mono (chunks : List Delta) (s : StreamState)
    (h : s.is_official_api = true) :
    (List.foldl consumeChunk s chunks).is_official_api = true := by
  induction chunks generalizing s with
  | nil => simpa using h
  | cons d t ih => exact ih _ (consumeChunk_official_mono s d h)

theorem foldl_no_reasoning (chunks : List Delta) (s : StreamState)
    (hof : s.is_official_api = false)
    (hno : ∀ d ∈ chunks, d.reasoning_content = none) :
    List.foldl consumeChunk s chunks =
      { s with full_response_content :=
          s.full_response_content ++ concatContents chunks } := by
  induction chunks generalizing s with
  | nil => simp [concatContents]
  | cons d t ih =>
      have hd : d.reasoning_content = none := hno d (by simp)
      have ht : ∀ x ∈ t, x.reasoning_content = none :=
        fun x hx => hno x (by simp [hx])
      cases hc : d.content with
      | none =>
          rw [List.foldl_cons]
          have hstep : consumeChunk s d = s := by simp [consumeChunk, hd, hc]
          rw [hstep, ih s hof ht]
          simp [concatContents, hc]
      | some c =>
          rw [List.foldl_cons]
          have hstep : consumeChunk s d =
              { s with full_response_content := s.full_response_content ++ c } := by
            simp [consumeChunk, hd, hc, hof]
          have hrest := ih
            { s with full_response_content := s.full_response_content ++ c } hof ht
          rw [hstep, hrest]
          simp [concatContents, hc, List.append_assoc]

/-- With no reasoning deltas, the loop only accumulates the concatenated
content into `full_response_content` and the flag stays down. -/
theorem runStream_no_reasoning (chunks : List Delta)
    (hno : ∀ d ∈ chunks, d.reasoning_content = none) :
    runStream chunks =
      { initState with full_response_content := concatContents chunks } := by
  have := foldl_no_reasoning chunks initState rfl hno
  simpa [runStream, initState] using this

/-- With no reasoning deltas, the whole interpreter is tag extraction over
the concatenation of the content deltas. -/
theorem interpret_no_reasoning (chunks : List Delta)
    (hno : ∀ d ∈ chunks, d.reasoning_content = none) :
    interpret chunks = finalizeTagged (concatContents chunks) := by
  rw [interpret, runStream_no_reasoning chunks hno]
  simp [finalizeState, initState]

theorem consumeChunkSink_fst (p : StreamState × List (List Char)) (d : Delta) :
    (consumeChunkSink p d).1 = consumeChunk p.1 d := by
  cases hr : d.reasoning_content <;> cases hc : d.content <;>
    simp [consumeChunkSink, consumeChunk, hr, hc]

theorem foldl_sink_fst (chunks : List Delta) (p : StreamState × List (List Char)) :
    (List.foldl consumeChunkSink p chunks).1 = List.foldl consumeChunk p.1 chunks := by
  induction chunks generalizing p with
  | nil => rfl
  | cons d t ih =>
      rw [List.foldl_cons, List.foldl_cons, ih, consumeChunkSink_fst]

/-- C1: when no reasoning delta was ever seen, finalization works on the
accumulated `rawContent`; if the first occurrence of `"<think>"` lies strictly
before the first occurrence of `"</think>"`, the reasoning text is the
trimmed substring strictly between the tags and the answer is the trimmed
substring after the closing tag; in every other case (a tag missing, or the
first close before the first open) the result is the sentinel together with
the whole trimmed raw content. -/
theorem c1_tagged_single_channel_finalization (raw : List Char) :
    (∀ chunks : List Delta, (∀ d ∈ chunks, d.reasoning_content = none) →
        concatContents chunks = raw → interpret chunks = finalizeTagged raw) ∧
    (∀ si ei, isFirstOccurrence openTagChars raw si →
        isFirstOccurrence closeTagChars raw ei → si < ei →
        finalizeTagged raw =
          (pyStrip ((raw.take ei).drop (si + openTagChars.length)),
           pyStrip (raw.drop (ei + closeTagChars.length)))) ∧
    ((¬ ∃ si ei, isFirstOccurrence openTagChars raw si ∧
        isFirstOccurrence closeTagChars raw ei ∧ si < ei) →
      finalizeTagged raw = (sentinelNoReasoning, pyStrip raw)) := by
  refine ⟨?_, ?_, ?_⟩
  · intro chunks hno hcat
    rw [interpret_no_reasoning chunks hno, hcat]
  · intro si ei hsi hei hlt
    have h1 := first_occurrence_pyFind _ _ _ hsi
    have h2 := first_occurrence_pyFind _ _ _ hei
    rw [finalizeTagged, h1, h2, List.drop_take]
    simp [hlt]
  · intro hnone
    rw [finalizeTagged]
    cases h1 : pyFind openTagChars raw with
    | none => rfl
    | some si =>
        cases h2 : pyFind closeTagChars raw with
        | none => rfl
        | some ei =>
            have hsi := pyFind_some_first _ _ _ h1
            have hei := pyFind_some_first _ _ _ h2
            have hge : ¬ si < ei := fun hlt => hnone ⟨si, ei, hsi, hei, hlt⟩
            simp [hge]

/-- Witness for C1 at concrete inputs: a well-tagged raw content (first
occurrences at 0 and 9), and a raw content with no tags at all. -/
theorem c1_tagged_single_channel_finalization_witness :
    finalizeTagged "<think>hi</think> ans ".data = ("hi".data, "ans".data) ∧
    finalizeTagged "no tags".data = (sentinelNoReasoning, "no tags".data) ∧
    interpret [⟨none, some "<think>hi</think> ans ".data⟩] =
      ("hi".data, "ans".data) := by
  have hmain := c1_tagged_single_channel_finalization "<think>hi</think> ans ".data
  have htag : finalizeTagged "<think>hi</think> ans ".data = ("hi".data, "ans".data) := by
    have h := hmain.2.1 0 9
      (pyFind_some_first _ _ _ (by decide))
      (pyFind_some_first _ _ _ (by decide))
      (by decide)
    rw [h]; decide
  refine ⟨htag, ?_, ?_⟩
  · have h := (c1_tagged_single_channel_finalization "no tags".data).2.2 ?_
    · rw [h]; decide
    · rintro ⟨si, ei, hsi, hei, hlt⟩
      have hfind := first_occurrence_pyFind _ _ _ hsi
      have hn : pyFind openTagChars "no tags".data = none := by decide
      rw [hn] at hfind
      cases hfind
  · have h := hmain.1 [⟨none, some "<think>hi</think> ans ".data⟩]
      (by decide) (by decide)
    rw [h, htag]

/-- C2: one fragment carrying a non-null reasoning delta marks the dialect
as dual-channel (official API) at that fragment, and the mark persists for
every subsequent fragment, whatever the later fragments carry. -/
theorem c2_dual_channel_sticky (pre post : List Delta) (d : Delta)
    (r : List Char) (h : d.reasoning_content = some r) :
    (List.foldl consumeChunk initState (pre ++ [d])).is_official_api = true ∧
    (List.foldl consumeChunk initState (pre ++ d :: post)).is_official_api = true := by
  have hat : (List.foldl consumeChunk initState (pre ++ [d])).is_official_api = true := by
    rw [List.foldl_append, List.foldl_cons, List.foldl_nil]
    exact consumeChunk_sets_official _ _ _ h
  refine ⟨hat, ?_⟩
  have : pre ++ d :: post = (pre ++ [d]) ++ post := by simp
  rw [this, List.foldl_append]
  exact foldl_official_mono _ _ hat

/-- Witness for C2: a reasoning delta in the middle of a stream whose later
fragments carry only null reasoning deltas. -/
theorem c2_dual_channel_sticky_witness :
    (List.foldl consumeChunk initState
      [⟨none, some "a".data⟩, ⟨some "r".data, none⟩, ⟨none, some "b".data⟩]
      ).is_official_api = true := by
  have h := c2_dual_channel_sticky [⟨none, some "a".data⟩]
    [⟨none, some "b".data⟩] ⟨some "r".data, none⟩ "r".data rfl
  exact h.2

/-- C3 counterexample: `run` catches the parse failure, but the value handed
to the caller is the bare `None` — identical for two streams whose finalized
answer texts differ — so the surfaced result does not carry the original
answerText (byte-identical or otherwise); only the exception is logged.  The
parser argument models `json.loads` on invalid documents such as
`"not json"`, where it raises. -/
theorem c3_parse_error_counterexample :
    run (fun _ => (none : Option Nat)) [⟨none, some "not json".data⟩] =
      run (fun _ => (none : Option Nat)) [⟨none, some "also not json".data⟩] ∧
    (interpret [⟨none, some "not json".data⟩]).2 ≠
      (interpret [⟨none, some "also not json".data⟩]).2 ∧
    run (fun _ => (none : Option Nat)) [⟨none, some "not json".data⟩] = none := by
  decide

/-- C3 (amended): when the finalized answerText fails to parse, no exception
propagates past `run` and there is no retry — the `except` block logs the
failure and `run` returns `None`, which does not carry the answerText. -/
theorem c3_parse_failure_returns_none {J : Type}
    (parse : List Char → Option J) (chunks : List Delta)
    (h : parse (interpret chunks).2 = none) :
    run parse chunks = none := by
  simp [run, h]

/-- Witness for the amended C3: a stream finalizing to `"not json"` under a
parser that rejects it. -/
theorem c3_parse_failure_returns_none_witness :
    run (fun _ => (none : Option Nat)) [⟨none, some "it is not json".data⟩] = none :=
  c3_parse_failure_returns_none _ _ rfl

/-- C4: for any stream with no reasoning deltas whose content deltas
concatenate to `"<think>abc</think>{\x22x\x22:1}"` — however that string is
split across fragment boundaries — the result is exactly
(`"abc"`, `"\x7b\x22x\x22:1\x7d"`). -/
theorem c4_fragment_boundary_invariance (chunks : List Delta)
    (hno : ∀ d ∈ chunks, d.reasoning_content = none)
    (hcat : concatContents chunks = "<think>abc</think>\x7b\"x\":1\x7d".data) :
    interpret chunks = ("abc".data, "\x7b\"x\":1\x7d".data) := by
  rw [interpret_no_reasoning chunks hno, hcat]
  decide

/-- Witness for C4: one particular three-way split of the string. -/
theorem c4_fragment_boundary_invariance_witness :
    interpret [⟨none, some "<think>ab".data⟩, ⟨none, some "c</th".data⟩,
        ⟨none, some "ink>\x7b\"x\":1\x7d".data⟩] =
      ("abc".data, "\x7b\"x\":1\x7d".data) :=
  c4_fragment_boundary_invariance _ (by decide) (by decide)

/-- C5: a non-null content delta is appended to exactly one buffer —
`full_response_content` when the dual-channel mark is down as of that
fragment, `final_answer` when it is up — and never to both; "as of that
fragment" includes a mark set by the same fragment's reasoning delta, since
the loop handles `reasoning_content` before `content`. -/
theorem c5_exclusive_accumulation (s : StreamState) (d : Delta)
    (c : List Char) (hc : d.content = some c) :
    ((s.is_official_api || d.reasoning_content.isSome) = false →
        (consumeChunk s d).full_response_content = s.full_response_content ++ c ∧
        (consumeChunk s d).final_answer = s.final_answer) ∧
    ((s.is_official_api || d.reasoning_content.isSome) = true →
        (consumeChunk s d).final_answer = s.final_answer ++ c ∧
        (consumeChunk s d).full_response_content = s.full_response_content) := by
  cases hr : d.reasoning_content <;> cases hof : s.is_official_api <;>
    simp [consumeChunk, hr, hc, hof]

/-- Witness for C5: both cases — an unmarked state receiving pure content,
and a marking fragment carrying reasoning and content together. -/
theorem c5_exclusive_accumulation_witness :
    ((consumeChunk initState ⟨none, some "x".data⟩).full_response_content =
        [] ++ "x".data ∧
      (consumeChunk initState ⟨none, some "x".data⟩).final_answer = []) ∧
    ((consumeChunk initState ⟨some "r".data, some "x".data⟩).final_answer =
        [] ++ "x".data ∧
      (consumeChunk initState ⟨some "r".data, some "x".data⟩).full_response_content
        = []) := by
  refine ⟨?_, ?_⟩
  · exact (c5_exclusive_accumulation initState ⟨none, some "x".data⟩
      "x".data rfl).1 rfl
  · exact (c5_exclusive_accumulation initState ⟨some "r".data, some "x".data⟩
      "x".data rfl).2 rfl

/-- C6: message construction yields exactly two messages — the system prompt
verbatim, and the user input either byte-identical (thinking enabled) or
prefixed with the literal `"/no_think\n"` (thinking disabled). -/
theorem c6_message_construction (system_prompt user_input : List Char) :
    prepare_messages system_prompt user_input true =
      [{ role := "system".data, content := system_prompt },
       { role := "user".data, content := user_input }] ∧
    prepare_messages system_prompt user_input false =
      [{ role := "system".data, content := system_prompt },
       { role := "user".data, content := "/no_think\n".data ++ user_input }] := by
  constructor <;> rfl

/-- C7 counterexample: a non-empty stream — one fragment with a non-null
content delta — whose finalized answerText is empty: whitespace-only content
strips to the empty string. -/
theorem c7_nonempty_answer_counterexample :
    ((⟨none, some " ".data⟩ : Delta).content ≠ none) ∧
    (interpret [⟨none, some " ".data⟩]).2 = [] := by
  decide

/-- C7 (amended): an empty upstream stream finalizes to the sentinel and an
empty answerText; a non-empty stream does not guarantee a non-empty
answerText (whitespace-only content, a bare think block, or reasoning-only
streams all finalize to an empty answer). -/
theorem c7_empty_stream_empty_answer :
    interpret ([] : List Delta) = (sentinelNoReasoning, []) := by
  decide

/-- C8: the pass-through display side effect (the `print` calls, modelled as
an output trace) never affects the returned result, and interpretation is
deterministic — the result of the effectful loop is exactly the pure
function `interpret` of the fragment list, so two fresh instances on the
same stream agree. -/
theorem c8_sink_independent_deterministic (chunks : List Delta) :
    finalizeState (runStreamSink chunks).1 = interpret chunks ∧
    (runStreamSink chunks).1 = runStream chunks := by
  have h : (runStreamSink chunks).1 = runStream chunks := by
    rw [runStreamSink, foldl_sink_fst, runStream]
  exact ⟨by rw [h, interpret], h⟩

/-- C9: when the finalized answerText parses, `run` returns that very string
unmodified (line 155 returns `final_json_str`, not the pretty-printed
rendering), so parsing the returned string again gives the same payload. -/
theorem c9_run_returns_exact_answer {J : Type}
    (parse : List Char → Option J) (chunks : List Delta) (v : J)
    (h : parse (interpret chunks).2 = some v) :
    run parse chunks = some (interpret chunks).2 ∧
    (∀ s, run parse chunks = some s → parse s = some v) := by
  have h1 : run parse chunks = some (interpret chunks).2 := by
    simp [run, h]
  refine ⟨h1, ?_⟩
  intro s hs
  rw [h1] at hs
  cases hs
  exact h

/-- Witness for C9: a parser accepting `"ok"`, and a stream finalizing to
`"ok"`. -/
theorem c9_run_returns_exact_answer_witness :
    run (fun l => if l = "ok".data then some 0 else none)
        [⟨none, some "ok".data⟩] = some "ok".data := by
  have h := (c9_run_returns_exact_answer
    (fun l => if l = "ok".data then some 0 else none)
    [⟨none, some "ok".data⟩] 0 (by decide)).1
  rw [h]
  decide

end AnamnesisClient
